import Mathlib

/-!
Verification of the numerical integration routines of
`src/1_basic/Cython_Overview.ipynb`.

The notebook contains five implementations of the same left-endpoint
Riemann sum for the integral of `sin x * cos x`:
`integrate_python`, `integrate_numpy`, `integrate_cython_types`,
`integrate_cython_libc`, `integrate_cython_cfun`, and a standalone
`integrate` in the embedded `integrate.pyx` source.

The embedding uses exact real arithmetic (`ℝ`) for the `double` values of
the source, `ℤ` for the Python/C integer `N`, and renders each `for i in
range(N)` loop as a fold over `List.range N.toNat` (Python's `range(N)`
is empty for `N ≤ 0`).  Division by zero, which in the source is either a
`ZeroDivisionError` (plain Python) or an IEEE `inf`/`nan`
(`@cython.cdivision(True)`), is rendered by Lean's total division
(`x / 0 = 0`); theorems touching that case spell this out.
-/

open Real

namespace CythonDemo

/-- `fpy` from the first cell: `return math.sin(x)*math.cos(x)`. -/
noncomputable def fpy (x : ℝ) : ℝ := Real.sin x * Real.cos x

/-- `fnp` from the first cell: `return np.sin(x)*np.cos(x)`, read elementwise. -/
noncomputable def fnp (x : ℝ) : ℝ := Real.sin x * Real.cos x

/-- `integrate_python` from the first cell:
`s = 0; dx = (b-a)/N; for i in range(N): s += fpy(a+i*dx); return s*dx`. -/
noncomputable def integrate_python (a b : ℝ) (N : ℤ) : ℝ :=
  let dx : ℝ := (b - a) / (N : ℝ)
  let s : ℝ := (List.range N.toNat).foldl (fun (s : ℝ) (i : ℕ) => s + fpy (a + (i : ℝ) * dx)) 0
  s * dx

/-- `np.linspace a b num`: `num` evenly spaced samples `a + i*(b-a)/(num-1)`,
`i = 0, …, num-1` (empty for `num ≤ 0`). -/
noncomputable def linspace (a b : ℝ) (num : ℤ) : List ℝ :=
  (List.range num.toNat).map (fun (i : ℕ) => a + (i : ℝ) * ((b - a) / ((num : ℝ) - 1)))

/-- `integrate_numpy` from the first cell:
`x = np.linspace(a, b, N + 1); dx = (b - a)/N; return dx*np.sum(fnp(x)[:-1])`. -/
noncomputable def integrate_numpy (a b : ℝ) (N : ℤ) : ℝ :=
  let x : List ℝ := linspace a b (N + 1)
  let dx : ℝ := (b - a) / (N : ℝ)
  dx * ((x.map fnp).dropLast).sum

namespace CythonTypes

/-- `f` from the `%%cython` cell with static types: `math.sin(x)*math.cos(x)`. -/
noncomputable def f (x : ℝ) : ℝ := Real.sin x * Real.cos x

/-- `integrate_cython_types`: same body as `integrate_python`, with
`double a, double b, int N` and `cdef int i; cdef double s, dx`. -/
noncomputable def integrate_cython_types (a b : ℝ) (N : ℤ) : ℝ :=
  let dx : ℝ := (b - a) / (N : ℝ)
  let s : ℝ := (List.range N.toNat).foldl (fun (s : ℝ) (i : ℕ) => s + f (a + (i : ℝ) * dx)) 0
  s * dx

end CythonTypes

namespace CythonLibc

/-- `f` from the libc cell: `sin(x)*cos(x)` with `libc.math` `sin`, `cos`. -/
noncomputable def f (x : ℝ) : ℝ := Real.sin x * Real.cos x

/-- `integrate_cython_libc`: same loop body, libc trig. -/
noncomputable def integrate_cython_libc (a b : ℝ) (N : ℤ) : ℝ :=
  let dx : ℝ := (b - a) / (N : ℝ)
  let s : ℝ := (List.range N.toNat).foldl (fun (s : ℝ) (i : ℕ) => s + f (a + (i : ℝ) * dx)) 0
  s * dx

end CythonLibc

namespace CythonCfun

/-- `cdef double f(double x)` from the C-function cell: `sin(x)*cos(x)`. -/
noncomputable def f (x : ℝ) : ℝ := Real.sin x * Real.cos x

/-- `integrate_cython_cfun`: same loop body, `f` a C function. -/
noncomputable def integrate_cython_cfun (a b : ℝ) (N : ℤ) : ℝ :=
  let dx : ℝ := (b - a) / (N : ℝ)
  let s : ℝ := (List.range N.toNat).foldl (fun (s : ℝ) (i : ℕ) => s + f (a + (i : ℝ) * dx)) 0
  s * dx

end CythonCfun

namespace Pyx

/-- `cdef double f(double x)` from `integrate.pyx`: `sin(x)*cos(x)`. -/
noncomputable def f (x : ℝ) : ℝ := Real.sin x * Real.cos x

/-- `cpdef double integrate(double a, double b, int N)` from `integrate.pyx`,
compiled with `@cython.cdivision(True)`: same body as `integrate_python`.
The unchecked C division `(b-a)/N` at `N = 0` is rendered by Lean's
`x / 0 = 0`. -/
noncomputable def integrate (a b : ℝ) (N : ℤ) : ℝ :=
  let dx : ℝ := (b - a) / (N : ℝ)
  let s : ℝ := (List.range N.toNat).foldl (fun (s : ℝ) (i : ℕ) => s + f (a + (i : ℝ) * dx)) 0
  s * dx

end Pyx

/-- Textbook composite trapezoidal rule with `N` subdivisions of `[a, b]`
applied to the integrand `fpy`, for comparison:
`dx * ((f x₀ + f x_N)/2 + ∑ interior f x_i)`. -/
noncomputable def trapezoid_sum (a b : ℝ) (N : ℤ) : ℝ :=
  let dx : ℝ := (b - a) / (N : ℝ)
  ((fpy a + fpy b) / 2 + ∑ i in Finset.Ico 1 N.toNat, fpy (a + (i : ℝ) * dx)) * dx

/-- The accumulation loop is the finite sum, for any start value. -/
theorem foldl_loop_eq_sum (φ : ℝ → ℝ) (a dxv : ℝ) (n : ℕ) (s : ℝ) :
    (List.range n).foldl (fun (t : ℝ) (i : ℕ) => t + φ (a + (i : ℝ) * dxv)) s
      = s + ∑ i in Finset.range n, φ (a + (i : ℝ) * dxv) := by
  induction n generalizing s with
  | zero => simp
  | succ n ih =>
    rw [List.range_succ, List.foldl_append, ih, Finset.sum_range_succ]
    simp [add_assoc]

/-- `integrate_python` unfolded to the left-endpoint Riemann sum. -/
theorem integrate_python_eq_sum (a b : ℝ) (N : ℤ) :
    integrate_python a b N
      = (∑ i in Finset.range N.toNat,
            Real.sin (a + (i : ℝ) * ((b - a) / (N : ℝ)))
              * Real.cos (a + (i : ℝ) * ((b - a) / (N : ℝ))))
          * ((b - a) / (N : ℝ)) := by
  unfold integrate_python
  simp only []
  rw [foldl_loop_eq_sum fpy a ((b - a) / (N : ℝ)) N.toNat 0]
  simp [fpy]

/-- Claim C1: for every `a`, `b` and integer `N ≥ 1`, `integrate_python a b N`
returns `s * dx` where `dx = (b - a)/N` and `s` is the sum over
`i ∈ 0..N-1` of `sin (a + i*dx) * cos (a + i*dx)` — the left-endpoint
Riemann sum built by an accumulator starting at `0` and updated once per
subdivision. -/
theorem claim_C1 (a b : ℝ) (N : ℤ) (hN : 1 ≤ N) :
    integrate_python a b N
      = (∑ i in Finset.range N.toNat,
            Real.sin (a + (i : ℝ) * ((b - a) / (N : ℝ)))
              * Real.cos (a + (i : ℝ) * ((b - a) / (N : ℝ))))
          * ((b - a) / (N : ℝ)) :=
  integrate_python_eq_sum a b N

/-- Witness for claim C1 at `a = 0`, `b = 1`, `N = 1`. -/
theorem claim_C1_witness :
    (1 : ℤ) ≤ 1 ∧
      integrate_python 0 1 1
        = (∑ i in Finset.range (1 : ℤ).toNat,
              Real.sin (0 + (i : ℝ) * ((1 - 0) / ((1 : ℤ) : ℝ)))
                * Real.cos (0 + (i : ℝ) * ((1 - 0) / ((1 : ℤ) : ℝ))))
            * ((1 - 0) / ((1 : ℤ) : ℝ)) :=
  ⟨by decide, claim_C1 0 1 1 (by decide)⟩

/-- Claim C8: `integrate_python a a N = 0` for every `a` and `N ≥ 1`
(zero-width interval: `dx = 0`, so `s * dx = 0`). -/
theorem claim_C8 (a : ℝ) (N : ℤ) (hN : 1 ≤ N) :
    integrate_python a a N = 0 := by
  unfold integrate_python
  simp

/-- Witness for claim C8 at `a = 0`, `N = 1`. -/
theorem claim_C8_witness : (1 : ℤ) ≤ 1 ∧ integrate_python 0 0 1 = 0 :=
  ⟨by decide, claim_C8 0 1 (by decide)⟩

/-- Claim C9: `integrate_python 0 (π/2) 1 = 0`: the single-bin left-endpoint
sum is `dx * sin 0 * cos 0 = dx * 0`. -/
theorem claim_C9 : integrate_python 0 (Real.pi / 2) 1 = 0 := by
  unfold integrate_python fpy
  norm_num [List.range_succ]

/-- Claim C10: for `N < 0` and `a ≠ b`, `integrate_python a b N` raises no
error and produces no `inf`/`nan`: the loop over `range(N)` is empty, so
the result is `0 * dx = 0`. -/
theorem claim_C10 (a b : ℝ) (N : ℤ) (hN : N < 0) (hab : a ≠ b) :
    integrate_python a b N = 0 := by
  unfold integrate_python
  have h : N.toNat = 0 := by omega
  simp [h]

/-- Witness for claim C10 at `a = 0`, `b = 1`, `N = -1`. -/
theorem claim_C10_witness :
    (-1 : ℤ) < 0 ∧ (0 : ℝ) ≠ 1 ∧ integrate_python 0 1 (-1) = 0 :=
  ⟨by decide, by norm_num, claim_C10 0 1 (-1) (by decide) (by norm_num)⟩

/-- A mapped range summed as a list equals the `Finset` sum. -/
theorem sum_map_range (h : ℕ → ℝ) (n : ℕ) :
    ((List.range n).map h).sum = ∑ i in Finset.range n, h i := by
  induction n with
  | zero => simp
  | succ n ih =>
    rw [List.range_succ, List.map_append, List.sum_append, ih, Finset.sum_range_succ]
    simp

/-- In exact arithmetic the vectorized version agrees with the plain loop. -/
theorem integrate_numpy_eq_python (a b : ℝ) (N : ℤ) (hN : 1 ≤ N) :
    integrate_numpy a b N = integrate_python a b N := by
  have hn : (N + 1).toNat = N.toNat + 1 := by omega
  have hden : (((N + 1 : ℤ)) : ℝ) - 1 = (N : ℝ) := by push_cast; ring
  unfold integrate_numpy linspace
  simp only [hn, hden, List.map_map]
  rw [List.range_succ, List.map_append]
  simp only [List.map_cons, List.map_nil, List.dropLast_concat]
  rw [integrate_python_eq_sum]
  have hcomp :
      (List.range N.toNat).map (fnp ∘ fun (i : ℕ) => a + (i : ℝ) * ((b - a) / (N : ℝ)))
        = (List.range N.toNat).map (fun (i : ℕ) => fnp (a + (i : ℝ) * ((b - a) / (N : ℝ)))) := by
    simp [Function.comp]
  rw [hcomp, sum_map_range (fun (i : ℕ) => fnp (a + (i : ℝ) * ((b - a) / (N : ℝ)))) N.toNat]
  simp only [fnp]
  ring

/-- Claim C2: the five implementations are numerically equivalent: in the
exact-real model, for all `a`, `b` and `N ≥ 1` in each implementation's
accepted range they return the same value. -/
theorem claim_C2 (a b : ℝ) (N : ℤ) (hN : 1 ≤ N) :
    integrate_numpy a b N = integrate_python a b N ∧
    CythonTypes.integrate_cython_types a b N = integrate_python a b N ∧
    CythonLibc.integrate_cython_libc a b N = integrate_python a b N ∧
    CythonCfun.integrate_cython_cfun a b N = integrate_python a b N :=
  ⟨integrate_numpy_eq_python a b N hN, rfl, rfl, rfl⟩

/-- Witness for claim C2 at `a = 0`, `b = 1`, `N = 1`. -/
theorem claim_C2_witness :
    (1 : ℤ) ≤ 1 ∧
      (integrate_numpy 0 1 1 = integrate_python 0 1 1 ∧
       CythonTypes.integrate_cython_types 0 1 1 = integrate_python 0 1 1 ∧
       CythonLibc.integrate_cython_libc 0 1 1 = integrate_python 0 1 1 ∧
       CythonCfun.integrate_cython_cfun 0 1 1 = integrate_python 0 1 1) :=
  ⟨by decide, claim_C2 0 1 1 (by decide)⟩

/-- On `[0, π/2]` the left-endpoint sum coincides with the trapezoidal rule,
because the integrand vanishes at both endpoints. -/
theorem python_eq_trapezoid (N : ℤ) (hN : 1 ≤ N) :
    integrate_python 0 (Real.pi / 2) N = trapezoid_sum 0 (Real.pi / 2) N := by
  have hn : 0 < N.toNat := by omega
  rw [integrate_python_eq_sum]
  rw [Finset.sum_range_eq_add_Ico _ hn]
  unfold trapezoid_sum
  simp [fpy]

/-- Claim C5: with `a = 0`, `b = π/2` each of the five implementations
returns exactly the trapezoidal-rule sum with `N` subdivisions (the
left-endpoint sum equals the trapezoidal sum there, as `sin x * cos x`
vanishes at both endpoints). -/
theorem claim_C5 (N : ℤ) (hN : 1 ≤ N) :
    integrate_python 0 (Real.pi / 2) N = trapezoid_sum 0 (Real.pi / 2) N ∧
    integrate_numpy 0 (Real.pi / 2) N = trapezoid_sum 0 (Real.pi / 2) N ∧
    CythonTypes.integrate_cython_types 0 (Real.pi / 2) N
      = trapezoid_sum 0 (Real.pi / 2) N ∧
    CythonLibc.integrate_cython_libc 0 (Real.pi / 2) N
      = trapezoid_sum 0 (Real.pi / 2) N ∧
    CythonCfun.integrate_cython_cfun 0 (Real.pi / 2) N
      = trapezoid_sum 0 (Real.pi / 2) N :=
  ⟨python_eq_trapezoid N hN,
   (integrate_numpy_eq_python 0 (Real.pi / 2) N hN).trans (python_eq_trapezoid N hN),
   python_eq_trapezoid N hN, python_eq_trapezoid N hN, python_eq_trapezoid N hN⟩

/-- Witness for claim C5 at `N = 1`. -/
theorem claim_C5_witness :
    (1 : ℤ) ≤ 1 ∧
      (integrate_python 0 (Real.pi / 2) 1 = trapezoid_sum 0 (Real.pi / 2) 1 ∧
       integrate_numpy 0 (Real.pi / 2) 1 = trapezoid_sum 0 (Real.pi / 2) 1 ∧
       CythonTypes.integrate_cython_types 0 (Real.pi / 2) 1
         = trapezoid_sum 0 (Real.pi / 2) 1 ∧
       CythonLibc.integrate_cython_libc 0 (Real.pi / 2) 1
         = trapezoid_sum 0 (Real.pi / 2) 1 ∧
       CythonCfun.integrate_cython_cfun 0 (Real.pi / 2) 1
         = trapezoid_sum 0 (Real.pi / 2) 1) :=
  ⟨by decide, claim_C5 1 (by decide)⟩

/-- Telescoping (product-to-sum) evaluation of `∑ sin (i·θ)`. -/
theorem telescope_sin (θ : ℝ) (n : ℕ) :
    2 * Real.sin (θ / 2) * ∑ i in Finset.range n, Real.sin ((i : ℝ) * θ)
      = Real.cos (θ / 2) - Real.cos ((n : ℝ) * θ - θ / 2) := by
  induction n with
  | zero => simp
  | succ n ih =>
    have key : Real.cos ((n : ℝ) * θ - θ / 2) - Real.cos (((n : ℝ) + 1) * θ - θ / 2)
        = 2 * Real.sin (θ / 2) * Real.sin ((n : ℝ) * θ) := by
      rw [Real.cos_sub_cos]
      have e1 : ((n : ℝ) * θ - θ / 2 + (((n : ℝ) + 1) * θ - θ / 2)) / 2
          = (n : ℝ) * θ := by ring
      have e2 : ((n : ℝ) * θ - θ / 2 - (((n : ℝ) + 1) * θ - θ / 2)) / 2
          = -(θ / 2) := by ring
      rw [e1, e2, Real.sin_neg]
      ring
    rw [Finset.sum_range_succ, mul_add, ih]
    push_cast
    linarith [key]

/-- Closed form of the routine at `a = 0`, `b = π/2`: with `t = π/(2N)` the
result is `t·cos t / (2·sin t)`. -/
theorem integrate_closed (N : ℤ) (hN : 1 ≤ N) :
    integrate_python 0 (Real.pi / 2) N
      = Real.pi / (2 * (N : ℝ)) * Real.cos (Real.pi / (2 * (N : ℝ)))
          / (2 * Real.sin (Real.pi / (2 * (N : ℝ)))) := by
  have hR : (1 : ℝ) ≤ (N : ℝ) := by exact_mod_cast hN
  have hR0 : (0 : ℝ) < (N : ℝ) := by linarith
  have hπ := Real.pi_pos
  set t : ℝ := Real.pi / (2 * (N : ℝ)) with ht
  have ht0 : 0 < t := by rw [ht]; positivity
  have ht2 : t ≤ Real.pi / 2 := by
    rw [ht, div_le_div_iff₀ (by linarith) (by linarith)]
    nlinarith
  have hsin_pos : 0 < Real.sin t :=
    Real.sin_pos_of_pos_of_lt_pi ht0 (by linarith)
  have hsin_ne : Real.sin t ≠ 0 := ne_of_gt hsin_pos
  have hcast : ((N.toNat : ℕ) : ℝ) = (N : ℝ) := by
    have h := Int.toNat_of_nonneg (show (0 : ℤ) ≤ N by omega)
    exact_mod_cast congrArg (Int.cast : ℤ → ℝ) h
  rw [integrate_python_eq_sum]
  simp only [sub_zero, zero_add]
  rw [div_div]
  have hterm : ∀ i : ℕ,
      Real.sin ((i : ℝ) * t) * Real.cos ((i : ℝ) * t)
        = Real.sin ((i : ℝ) * (2 * t)) / 2 := by
    intro i
    rw [show (i : ℝ) * (2 * t) = 2 * ((i : ℝ) * t) by ring, Real.sin_two_mul]
    ring
  rw [← ht]
  simp only [hterm]
  rw [← Finset.sum_div]
  have htel := telescope_sin (2 * t) N.toNat
  rw [show 2 * t / 2 = t by ring] at htel
  have hnt : ((N.toNat : ℕ) : ℝ) * (2 * t) - t = Real.pi - t := by
    rw [hcast, ht]
    field_simp
    ring
  rw [hnt, Real.cos_pi_sub] at htel
  have hS : ∑ i in Finset.range N.toNat, Real.sin ((i : ℝ) * (2 * t))
      = Real.cos t / Real.sin t := by
    rw [eq_div_iff hsin_ne]
    nlinarith [htel]
  rw [hS]
  field_simp
  ring

/-- Error of `t·cos t / (2·sin t)` against `1/2`, for `0 < t ≤ π/2`. -/
theorem err_bound (t : ℝ) (h0 : 0 < t) (h2 : t ≤ Real.pi / 2) :
    |t * Real.cos t / (2 * Real.sin t) - 1 / 2| ≤ t ^ 2 / 2 := by
  have hπ := Real.pi_pos
  have hπ4 := Real.pi_le_four
  have ht0' : t ≠ 0 := ne_of_gt h0
  have hsin : 2 / Real.pi * t ≤ Real.sin t := Real.mul_le_sin h0.le h2
  have hsin2 : t / 2 ≤ Real.sin t := by
    have h24 : t / 2 ≤ 2 * t / Real.pi := by
      rw [div_le_div_iff₀ (by norm_num : (0 : ℝ) < 2) hπ]
      nlinarith [mul_le_mul_of_nonneg_left hπ4 h0.le]
    calc t / 2 ≤ 2 * t / Real.pi := h24
      _ = 2 / Real.pi * t := by ring
      _ ≤ Real.sin t := hsin
  have hsin_pos : 0 < Real.sin t := lt_of_lt_of_le (by positivity) hsin2
  have hne : Real.sin t ≠ 0 := ne_of_gt hsin_pos
  have hnum_nonneg : 0 ≤ Real.sin t - t * Real.cos t := by
    rcases lt_or_eq_of_le h2 with hlt | heq
    · have hcos : 0 < Real.cos t := Real.cos_pos_of_mem_Ioo ⟨by linarith, hlt⟩
      have htan := Real.lt_tan h0 hlt
      rw [Real.tan_eq_sin_div_cos] at htan
      have hmul := (lt_div_iff₀ hcos).mp htan
      linarith
    · rw [heq]
      simp [Real.cos_pi_div_two, Real.sin_pi_div_two]
  have hcos1 : Real.cos t ≤ 1 := Real.cos_le_one t
  have hsinle : Real.sin t ≤ t := le_of_lt (Real.sin_lt h0)
  have hhalf : 1 - Real.cos t ≤ t ^ 2 / 2 := by
    have hs2 : Real.sin (t / 2) ≤ t / 2 := le_of_lt (Real.sin_lt (by positivity))
    have hs2nn : 0 ≤ Real.sin (t / 2) :=
      Real.sin_nonneg_of_nonneg_of_le_pi (by positivity) (by nlinarith)
    have hcos_id : Real.cos t = 1 - 2 * Real.sin (t / 2) ^ 2 := by
      have h1 := Real.cos_two_mul (t / 2)
      rw [show 2 * (t / 2) = t by ring] at h1
      rw [h1, Real.cos_sq']
      ring
    have hsq : Real.sin (t / 2) ^ 2 ≤ (t / 2) ^ 2 := pow_le_pow_left₀ hs2nn hs2 2
    rw [hcos_id]
    nlinarith
  have hnum_le : Real.sin t - t * Real.cos t ≤ t ^ 3 / 2 := by
    have h3 : t * (1 - Real.cos t) ≤ t * (t ^ 2 / 2) :=
      mul_le_mul_of_nonneg_left hhalf h0.le
    nlinarith
  have hre : t * Real.cos t / (2 * Real.sin t) - 1 / 2
      = -((Real.sin t - t * Real.cos t) / (2 * Real.sin t)) := by
    field_simp
    ring
  rw [hre, abs_neg, abs_div]
  rw [abs_of_nonneg hnum_nonneg,
    abs_of_pos (by positivity : (0 : ℝ) < 2 * Real.sin t)]
  have hden : t ≤ 2 * Real.sin t := by linarith
  calc (Real.sin t - t * Real.cos t) / (2 * Real.sin t)
      ≤ (t ^ 3 / 2) / t := div_le_div₀ (by positivity) hnum_le h0 hden
    _ = t ^ 2 / 2 := by field_simp; ring

/-- The result at `(0, π/2, N)` is within `(π/(2N))²/2` of `1/2`. -/
theorem integrate_err (N : ℤ) (hN : 1 ≤ N) :
    |integrate_python 0 (Real.pi / 2) N - 1 / 2|
      ≤ (Real.pi / (2 * (N : ℝ))) ^ 2 / 2 := by
  have hR : (1 : ℝ) ≤ (N : ℝ) := by exact_mod_cast hN
  have hπ := Real.pi_pos
  have ht0 : 0 < Real.pi / (2 * (N : ℝ)) := by positivity
  have ht2 : Real.pi / (2 * (N : ℝ)) ≤ Real.pi / 2 := by
    rw [div_le_div_iff₀ (by linarith) (by linarith)]
    nlinarith
  rw [integrate_closed N hN]
  exact err_bound _ ht0 ht2

/-- Claim C6: for `a = 0`, `b = π/2` and every `N ≥ 1000` the distance of the
result from the exact value `1/2` is at most `C/N` with the explicit
constant `C = 2` (first-order left-Riemann-sum convergence; in fact the
proof passes through the sharper `(π/(2N))²/2` bound). -/
theorem claim_C6 (N : ℤ) (hN : 1000 ≤ N) :
    |integrate_python 0 (Real.pi / 2) N - 1 / 2| ≤ 2 / (N : ℝ) := by
  have h1 : (1 : ℤ) ≤ N := by omega
  have hR : (1000 : ℝ) ≤ (N : ℝ) := by exact_mod_cast hN
  have hR0 : (0 : ℝ) < (N : ℝ) := by linarith
  have hπ := Real.pi_pos
  have hπ4 := Real.pi_le_four
  have h := integrate_err N h1
  refine h.trans ?_
  have ht : Real.pi / (2 * (N : ℝ)) ≤ 2 / (N : ℝ) := by
    rw [div_le_div_iff₀ (by linarith) hR0]
    nlinarith
  have ht0 : 0 < Real.pi / (2 * (N : ℝ)) := by positivity
  have hsq : (Real.pi / (2 * (N : ℝ))) ^ 2 ≤ (2 / (N : ℝ)) ^ 2 :=
    pow_le_pow_left₀ ht0.le ht 2
  have heq : (2 / (N : ℝ)) ^ 2 / 2 = 2 / (N : ℝ) ^ 2 := by
    field_simp
    ring
  have hlast : 2 / (N : ℝ) ^ 2 ≤ 2 / (N : ℝ) := by
    rw [div_le_div_iff₀ (by positivity) hR0]
    nlinarith
  linarith

/-- Witness for claim C6 at `N = 1000`. -/
theorem claim_C6_witness :
    (1000 : ℤ) ≤ 1000 ∧
      |integrate_python 0 (Real.pi / 2) 1000 - 1 / 2| ≤ 2 / ((1000 : ℤ) : ℝ) :=
  ⟨by decide, claim_C6 1000 (by decide)⟩

/-- Claim C7: at the notebook's test inputs `a = 0`, `b = π/2`
(`0.5*np.pi`, printed as `1.5707963267948966`), `N = 500000`, the result
is within `10⁻⁵` of `0.5`. -/
theorem claim_C7 :
    |integrate_python 0 (Real.pi / 2) 500000 - 1 / 2| ≤ 1 / 100000 := by
  have h := integrate_err 500000 (by decide)
  have hπ := Real.pi_pos
  have hπ4 := Real.pi_le_four
  refine h.trans ?_
  rw [show (((500000 : ℤ)) : ℝ) = 500000 by norm_num]
  nlinarith [sq_nonneg (Real.pi - 4)]

/-- Counterexample to claim C3 as stated: at `a = 0`, `b = 1`, `N = -1`
(an input with `N ≤ 0`), `integrate` does not produce `inf`/`nan`: the
loop over `range(N)` is empty and the division is by the nonzero `-1`, so
both the compiled `integrate` and `integrate_python` return the ordinary
finite value `0`. -/
theorem claim_C3_counterexample :
    Pyx.integrate 0 1 (-1) = 0 ∧ integrate_python 0 1 (-1) = 0 := by
  constructor <;>
    norm_num [Pyx.integrate, integrate_python,
      show ((-1 : ℤ)).toNat = 0 by rfl]

/-- Claim C3, amended: for every `N < 0` (and any `a`, `b`), `integrate`
raises no failure and returns the finite value `0` — not `inf`/`nan`.
The `inf`/`nan` (or, for plain Python, `ZeroDivisionError`) behavior the
original claim describes can only arise from the division `(b-a)/N` at
`N = 0`, a case the exact-real model renders with Lean's `x / 0 = 0`. -/
theorem claim_C3 (a b : ℝ) (N : ℤ) (hN : N < 0) :
    integrate_python a b N = 0 ∧ Pyx.integrate a b N = 0 := by
  have h : N.toNat = 0 := by omega
  constructor <;> simp [integrate_python, Pyx.integrate, h]

/-- Witness for the amended claim C3 at `a = 2`, `b = 3`, `N = -2`. -/
theorem claim_C3_witness :
    (-2 : ℤ) < 0 ∧ (integrate_python 2 3 (-2) = 0 ∧ Pyx.integrate 2 3 (-2) = 0) :=
  ⟨by decide, claim_C3 2 3 (-2) (by decide)⟩

/-- Counterexample to claim C4 as stated: at `a = 0`, `b = 1`, `N = 0` the
call is not rejected — no precondition check exists in the source, so the
call completes normally and returns a value (`s * dx` with `s = 0`; the
unchecked `cdivision` computation of `dx = (b-a)/0` is rendered by the
model's total division). -/
theorem claim_C4_counterexample : Pyx.integrate 0 1 0 = 0 := by
  unfold Pyx.integrate
  norm_num

/-- Claim C4, amended: when `N = 0`, `integrate` performs no precondition
check and raises no explicit error before computing `dx`: it computes
`dx = (b-a)/0` directly (under `@cython.cdivision(True)` this is the
silent C division, yielding `nan`; plain Python would instead raise
`ZeroDivisionError` at the division itself, not before it) and returns
`s * dx` with the accumulator `s = 0` from the empty loop. -/
theorem claim_C4 (a b : ℝ) : Pyx.integrate a b 0 = 0 := by
  unfold Pyx.integrate
  norm_num

end CythonDemo
